import Mathlib

/-!
Shallow embedding of the weewx-windfinder extension (`bin/user/windfinder.py`)
and proofs about its record guard, response checking, URL construction,
password redaction, service construction and enqueueing behaviour.

Scalar observation values are modelled as rationals; archive records are
insertion-ordered association lists from observation names to optional values
(a key mapping to `none` models a null value; a missing key is absence from
the list).  External collaborators (`weewx.restx.RESTThread.get_record`,
`weewx.units.to_METRICWX`, `weewx.units.convert`, `time.localtime`) are
passed in as function parameters.
-/

/-- Errors raised by the REST helpers: `weewx.restx.AbortedPost` and
`weewx.restx.FailedPost`, each carrying its message. -/
inductive PostError where
  | aborted (msg : String)
  | failed (msg : String)
  deriving Repr, DecidableEq

/-- A weewx archive record: an insertion-ordered dictionary from observation
names to optional scalar values. -/
abbrev Rec := List (String × Option ℚ)

/-- `k in record and record[k] is not None`: the value of a field that is both
present and non-null, `none` otherwise. -/
def getVal (r : Rec) (k : String) : Option ℚ :=
  match r.lookup k with
  | some (some v) => some v
  | _ => none

/-- `record[k] = v` for a key that is already present: replace the stored value
in place, keeping the dictionary order. -/
def setVal (r : Rec) (k : String) (v : Option ℚ) : Rec :=
  r.map (fun kv => if kv.1 = k then (kv.1, v) else kv)

/-- `haystack.find(needle) >= 0`: Boolean substring containment. -/
def containsSub (p : List Char) : List Char → Bool
  | [] => p.isPrefixOf []
  | c :: rest => p.isPrefixOf (c :: rest) || containsSub p rest

/-- `WindFinderThread.get_record`: the record produced by the superclass
(`weewx.restx.RESTThread.get_record`, an external collaborator passed as
`sup`) must carry a present, non-null `windSpeed`; otherwise
`AbortedPost("No windSpeed in record")` is raised. -/
def get_record (sup : Rec → Rec) (record : Rec) : Except PostError Rec :=
  let r := sup record
  if getVal r "windSpeed" = none then
    Except.error (PostError.aborted "No windSpeed in record")
  else
    Except.ok r

/-- The line-accumulation loop of `WindFinderThread.check_response`: the
`reading` flag is switched on by a line containing `<body` and off by a line
containing `</body>`; only lines seen while `reading` is set and containing
neither marker are accumulated. -/
def gatherLines : List String → Bool → List String
  | [], _ => []
  | line :: rest, reading =>
    if containsSub "<body".data line.data then gatherLines rest true
    else if containsSub "</body>".data line.data then gatherLines rest false
    else if reading then line :: gatherLines rest reading
    else gatherLines rest reading

/-- `''.join(lines)`. -/
def strJoin : List String → String
  | [] => ""
  | s :: rest => s ++ strJoin rest

/-- `WindFinderThread.check_response`: the response is iterated line by line,
the text between the body-marker lines is collected, and a message that does
not start with `OK` raises `FailedPost("Server response: %s" % msg)`. -/
def check_response (response : List String) : Except PostError Unit :=
  let msg := strJoin (gatherLines response false)
  if "OK".data.isPrefixOf msg.data then Except.ok ()
  else Except.error (PostError.failed ("Server response: " ++ msg))

/-- Broken-down local time, as produced by the external `time.localtime`. -/
structure Tm where
  year : Nat
  month : Nat
  day : Nat
  hour : Nat
  minute : Nat

/-- Zero-pad to two digits (the `%d`, `%m`, `%H`, `%M` strftime fields). -/
def pad2 (n : Nat) : String :=
  if n < 10 then "0" ++ toString n else toString n

/-- `time.strftime("%d.%m.%Y", time_tt)`. -/
def strfDate (t : Tm) : String :=
  pad2 t.day ++ "." ++ pad2 t.month ++ "." ++ toString t.year

/-- `time.strftime("%H:%M", time_tt)`. -/
def strfTime (t : Tm) : String :=
  pad2 t.hour ++ ":" ++ pad2 t.minute

/-- `'%.<p>f' % q`: fixed-point formatting with `p` digits after the decimal
point (ties round upward in this rational model). -/
def fmtFixed (p : Nat) (q : ℚ) : String :=
  let scaled : ℤ := ⌊q * (10 : ℚ) ^ p + 1 / 2⌋
  let sign := if scaled < 0 then "-" else ""
  let n := scaled.natAbs
  if p = 0 then sign ++ toString n
  else
    let fs := toString (n % 10 ^ p)
    sign ++ toString (n / 10 ^ p) ++ "." ++
      String.mk (List.replicate (p - fs.length) '0') ++ fs

/-- `WindFinderThread._DATA_MAP`: wire key, source observation, decimal
places of the `%.Nf` format, in the dictionary's insertion order. -/
def _DATA_MAP : List (String × String × Nat) :=
  [("airtemp", "outTemp", 1),
   ("winddir", "windDir", 0),
   ("windspeed", "windSpeed", 1),
   ("gust", "windGust", 1),
   ("pressure", "barometer", 3),
   ("rain", "rainRate", 2)]

/-- The external `weewx.units.convert` collaborator: source unit, target
unit, value; fails when a unit is unknown. -/
abbrev UnitConvert := String → String → ℚ → Except String ℚ

/-- `_mps_to_knot`: convert a value from `meter_per_second` to `knot` through
the unit-conversion collaborator. -/
def _mps_to_knot (convert : UnitConvert) (v : ℚ) : Except String ℚ :=
  convert "meter_per_second" "knot" v

/-- The standard speed conversion of the external `weewx.units` module: one
knot is 1852 m per 3600 s. -/
def weewxSpeedConvert : UnitConvert := fun fromUnit toUnit v =>
  if fromUnit = "meter_per_second" ∧ toUnit = "knot" then
    Except.ok (v * (3600 / 1852))
  else Except.error "Unknown unit"

/-- One `if key in record and record[key] is not None: record[key] =
_mps_to_knot(record[key])` block of `format_url`. -/
def knotStep (convert : UnitConvert) (r : Rec) (k : String) :
    Except String Rec :=
  match getVal r k with
  | some v => (_mps_to_knot convert v).map (fun w => setVal r k (some w))
  | none => Except.ok r

/-- The two wind rescaling statements of `format_url`, in source order. -/
def knotSteps (convert : UnitConvert) (r : Rec) : Except String Rec :=
  match knotStep convert r "windSpeed" with
  | Except.error e => Except.error e
  | Except.ok r1 => knotStep convert r1 "windGust"

/-- Characters `urllib.parse.quote_plus` leaves unescaped. -/
def isSafeChar (c : Char) : Bool :=
  c.isAlphanum || c = '_' || c = '.' || c = '-' || c = '~'

/-- One uppercase hexadecimal digit, for `n % 16`. -/
def hexDigit (n : Nat) : Char :=
  let m := n % 16
  if m < 10 then Char.ofNat (48 + m) else Char.ofNat (55 + m)

/-- The UTF-8 bytes of one character. -/
def utf8Bytes (c : Char) : List Nat :=
  let n := c.toNat
  if n < 128 then [n]
  else if n < 2048 then [192 + n / 64, 128 + n % 64]
  else if n < 65536 then [224 + n / 4096, 128 + n / 64 % 64, 128 + n % 64]
  else [240 + n / 262144, 128 + n / 4096 % 64, 128 + n / 64 % 64, 128 + n % 64]

/-- `urllib.parse.quote_plus` on one character: space becomes `+`, safe
characters pass through, anything else is percent-encoded bytewise. -/
def quotePlusChar (c : Char) : List Char :=
  if c = ' ' then ['+']
  else if isSafeChar c then [c]
  else (utf8Bytes c).flatMap (fun b => ['%', hexDigit (b / 16), hexDigit b])

/-- `urllib.parse.quote_plus` on a string. -/
def quotePlus (s : String) : String :=
  String.mk (s.data.flatMap quotePlusChar)

/-- `'&'.join`. -/
def joinAmp : List String → String
  | [] => ""
  | [s] => s
  | s :: rest => s ++ "&" ++ joinAmp rest

/-- `urllib.parse.urlencode`: quote keys and values and join the `k=v` pairs
with `&`. -/
def urlencode (ps : List (String × String)) : String :=
  joinAmp (ps.map (fun kv => quotePlus kv.1 ++ "=" ++ quotePlus kv.2))

/-- The `for key in self._DATA_MAP` loop of `format_url`: emit every mapped
field that is present and non-null, formatted per its format string; absent
and null fields are skipped. -/
def mappedParams (r : Rec) : List (String × String) :=
  _DATA_MAP.filterMap
    (fun e => (getVal r e.2.1).map (fun v => (e.1, fmtFixed e.2.2 v)))

/-- `WindFinderThread._SERVER_URL`. -/
def _SERVER_URL : String := "http://www.windfinder.com/wind-cgi/httpload.pl"

/-- The ordered dictionary `values` built by `format_url` from the converted
record `r` and its `dateTime` value `dt`. -/
def buildValues (lt : ℚ → Tm) (station_id password : String) (r : Rec)
    (dt : ℚ) : List (String × String) :=
  [("sender_id", station_id), ("password", password),
   ("date", strfDate (lt dt)), ("time", strfTime (lt dt))] ++ mappedParams r

/-- `WindFinderThread.format_url`: convert the record (`weewx.units.to_METRICWX`
is the external collaborator `toM`), rescale wind speed and gust to knots,
read `dateTime` (a missing or null value is a Python `KeyError`/`TypeError`),
build the query dictionary and URL-encode it onto the server URL.  A failing
unit conversion propagates out of the whole transform. -/
def format_url (toM : Rec → Rec) (convert : UnitConvert) (lt : ℚ → Tm)
    (station_id password server_url : String) (in_record : Rec) :
    Except String String :=
  match knotSteps convert (toM in_record) with
  | Except.error e => Except.error e
  | Except.ok record =>
    match getVal record "dateTime" with
    | none => Except.error "KeyError: dateTime"
    | some dt =>
      Except.ok (server_url ++ "?" ++
        urlencode (buildValues lt station_id password record dt))

/-- `re.sub(r"password=[^\&]*", "password=XXX", url)` as a fuel-indexed
left-to-right scan: where the pattern `password=` matches, emit
`password=XXX` and resume after the following run of non-`&` characters;
otherwise copy one character.  The fuel only forces structural recursion. -/
def redactFuel : Nat → List Char → List Char
  | 0, _ => []
  | _ + 1, [] => []
  | fuel + 1, c :: cs =>
    if "password=".data.isPrefixOf (c :: cs) then
      "password=XXX".data ++
        redactFuel fuel (((c :: cs).drop 9).dropWhile (fun a => a != '&'))
    else c :: redactFuel fuel cs

/-- The password redaction of `format_url` on a character list. -/
def redactChars (l : List Char) : List Char := redactFuel l.length l

/-- The password redaction of `format_url` on the built URL. -/
def redactPassword (s : String) : String := String.mk (redactChars s.data)

/-- The debug log line of `format_url` (`logdbg`, emitted only when
`weewx.debug >= 2`), with the password value redacted. -/
def logged_url (debug : Nat) (url : String) : Option String :=
  if 2 ≤ debug then some ("url: " ++ redactPassword url) else none

/-- The query string as a character list: `k=v` segments joined by `&`
(the character-level picture of `urlencode`). -/
def qstring : List (List Char × List Char) → List Char
  | [] => []
  | [kv] => kv.1 ++ '=' :: kv.2
  | kv :: rest => kv.1 ++ '=' :: kv.2 ++ '&' :: qstring rest

/-- Replace the value stored under the `password` key by the fixed redaction
token `XXX`, leaving every other pair alone. -/
def substPwd (ps : List (String × String)) : List (String × String) :=
  ps.map (fun kv => if kv.1 = "password" then (kv.1, "XXX") else kv)

/-- Every key `format_url` ever puts into the `values` dictionary. -/
def wfKeys : List String :=
  ["sender_id", "password", "date", "time",
   "airtemp", "winddir", "windspeed", "gust", "pressure", "rain"]

/-- A key character list through which the redaction scan passes untouched:
no `=` or `&`, and it ends in `password` only by being exactly `password`. -/
def goodKey (k : List Char) : Prop :=
  '=' ∉ k ∧ '&' ∉ k ∧ (k = "password".data ∨ ¬ "password".data <:+ k)

/-- A value character list through which the redaction scan passes
untouched: no `=` or `&` (true of every `quote_plus` output). -/
def goodVal (v : List Char) : Prop := '=' ∉ v ∧ '&' ∉ v

/-- What the `WindFinder` service constructor did: whether the upload thread
was started and whether the service bound to `NEW_ARCHIVE_RECORD`. -/
structure InitResult where
  threadStarted : Bool
  boundNewArchiveRecord : Bool
  deriving Repr, DecidableEq

/-- Modelled from the spec: `weewx.restx.get_site_dict` (external to this
repository) returns the site configuration only when both required options
`station_id` and `password` are present, and `None` — logging the condition
once — otherwise. -/
def get_site_dict (station_id password : Option String) :
    Option (String × String) :=
  match station_id, password with
  | some s, some p => some (s, p)
  | _, _ => none

/-- `WindFinder.__init__`: when `get_site_dict` yields nothing the
constructor just returns, starting no thread and binding no event; otherwise
it starts the upload thread and binds to `NEW_ARCHIVE_RECORD`.  It is total:
missing configuration never raises. -/
def windfinder_init (station_id password : Option String) : InitResult :=
  match get_site_dict station_id password with
  | none => ⟨false, false⟩
  | some _ => ⟨true, true⟩

/-- The state owned by the `WindFinder` service: the archive queue, plus the
configured backlog bound (which is held by the thread; default
`sys.maxsize`). -/
structure ServiceState where
  queue : List Rec
  maxBacklog : Nat

/-- `WindFinder.new_archive_record`: an unconditional `queue.put` of the new
record. -/
def new_archive_record (st : ServiceState) (record : Rec) : ServiceState :=
  { st with queue := st.queue ++ [record] }

theorem gatherLines_cons_body {line : String} {rest : List String}
    {reading : Bool} (h : containsSub "<body".data line.data = true) :
    gatherLines (line :: rest) reading = gatherLines rest true := by
  simp [gatherLines, h]

theorem gatherLines_cons_endbody {line : String} {rest : List String}
    {reading : Bool} (h1 : containsSub "<body".data line.data = false)
    (h2 : containsSub "</body>".data line.data = true) :
    gatherLines (line :: rest) reading = gatherLines rest false := by
  simp [gatherLines, h1, h2]

theorem gatherLines_cons_read {line : String} {rest : List String}
    (h1 : containsSub "<body".data line.data = false)
    (h2 : containsSub "</body>".data line.data = false) :
    gatherLines (line :: rest) true = line :: gatherLines rest true := by
  simp [gatherLines, h1, h2]

theorem gatherLines_cons_skip {line : String} {rest : List String}
    (h1 : containsSub "<body".data line.data = false)
    (h2 : containsSub "</body>".data line.data = false) :
    gatherLines (line :: rest) false = gatherLines rest false := by
  simp [gatherLines, h1, h2]

/-- C1: for every archive record whose `windSpeed` is absent or null (and a
superclass `get_record` that does not alter the `windSpeed` entry), the
override raises `AbortedPost` — so the job is aborted before any network
attempt — and for every record with a non-null `windSpeed` it returns the
record produced by the superclass. -/
theorem C1_get_record_windSpeed_guard (sup : Rec → Rec) (record : Rec)
    (hsup : getVal (sup record) "windSpeed" = getVal record "windSpeed") :
    (getVal record "windSpeed" = none →
      get_record sup record =
        Except.error (PostError.aborted "No windSpeed in record")) ∧
    (∀ v : ℚ, getVal record "windSpeed" = some v →
      get_record sup record = Except.ok (sup record)) := by
  constructor
  · intro h
    simp [get_record, hsup, h]
  · intro v h
    simp [get_record, hsup, h]

/-- Witness for C1 at a concrete record with a non-null `windSpeed`. -/
theorem C1_get_record_windSpeed_guard_witness :
    get_record id [("windSpeed", some (5 : ℚ))] =
      Except.ok [("windSpeed", some (5 : ℚ))] :=
  (C1_get_record_windSpeed_guard id [("windSpeed", some (5 : ℚ))] rfl).2 5 (by decide)

/-- C2 counterexample: a response delivered as the single line
`<html><body>OK</body></html>` — whose body text between the markers is `OK` —
is nevertheless rejected with a `FailedPost` carrying an empty captured text,
because the marker line itself contributes no text. -/
theorem C2_counterexample :
    check_response ["<html><body>OK</body></html>"] =
      Except.error (PostError.failed ("Server response: " ++ "")) := by
  have h : containsSub "<body".data "<html><body>OK</body></html>".data
      = true := by decide
  unfold check_response
  rw [gatherLines_cons_body h]
  rfl

/-- Helper: lines free of both markers are accumulated verbatim while
`reading` is set. -/
theorem gatherLines_middle (bs tail : List String)
    (h : ∀ l ∈ bs, containsSub "<body".data l.data = false ∧
        containsSub "</body>".data l.data = false) :
    gatherLines (bs ++ tail) true = bs ++ gatherLines tail true := by
  induction bs with
  | nil => rfl
  | cons b bs ih =>
    have hb := h b (List.mem_cons_self b bs)
    rw [List.cons_append, gatherLines_cons_read hb.1 hb.2,
      ih (fun l hl => h l (List.mem_cons_of_mem b hl)), List.cons_append]

/-- C2 (amended): `check_response` accumulates only the lines strictly between
the line containing `<body` and the line containing `</body>`; when the
markers arrive on lines of their own, it succeeds if and only if the
concatenation of the in-between lines (untrimmed) starts with `OK`, and
otherwise raises `FailedPost` carrying `Server response: ` followed by that
text. -/
theorem C2_check_response_line_framed (bs : List String)
    (h : ∀ l ∈ bs, containsSub "<body".data l.data = false ∧
        containsSub "</body>".data l.data = false) :
    check_response (["<html>", "<body>"] ++ bs ++ ["</body>", "</html>"]) =
      (if "OK".data.isPrefixOf (strJoin bs).data then Except.ok ()
       else Except.error
        (PostError.failed ("Server response: " ++ strJoin bs))) := by
  have hg : gatherLines (["<html>", "<body>"] ++ bs ++ ["</body>", "</html>"])
      false = bs := by
    show gatherLines ("<html>" :: "<body>" :: (bs ++ ["</body>", "</html>"]))
        false = bs
    rw [gatherLines_cons_skip (by decide) (by decide),
      gatherLines_cons_body (by decide),
      gatherLines_middle bs ["</body>", "</html>"] h,
      gatherLines_cons_endbody (by decide) (by decide),
      gatherLines_cons_skip (by decide) (by decide)]
    simp [gatherLines]
  unfold check_response
  rw [hg]

/-- Witness for C2 (amended) at a concrete multi-line success response. -/
theorem C2_check_response_line_framed_witness :
    check_response (["<html>", "<body>"] ++ ["OK"] ++ ["</body>", "</html>"]) =
      Except.ok () := by
  rw [C2_check_response_line_framed ["OK"] (by decide)]
  rw [if_pos (by decide)]

/-- C10: a line containing the `<body` marker (or, failing that, the
`</body>` marker) contributes no text and only toggles the reading flag, so a
response delivered as a single line is rejected with a `FailedPost` carrying
an empty captured message even when the text between the markers is `OK`. -/
theorem C10_marker_lines_contribute_nothing :
    (∀ (line : String) (rest : List String) (reading : Bool),
        containsSub "<body".data line.data = true →
        gatherLines (line :: rest) reading = gatherLines rest true) ∧
    (∀ (line : String) (rest : List String) (reading : Bool),
        containsSub "<body".data line.data = false →
        containsSub "</body>".data line.data = true →
        gatherLines (line :: rest) reading = gatherLines rest false) ∧
    (∀ line : String, containsSub "<body".data line.data = true →
        check_response [line] =
          Except.error (PostError.failed ("Server response: " ++ ""))) := by
  refine ⟨?_, ?_, ?_⟩
  · intro line rest reading h
    exact gatherLines_cons_body h
  · intro line rest reading h1 h2
    exact gatherLines_cons_endbody h1 h2
  · intro line h
    unfold check_response
    rw [gatherLines_cons_body h]
    rfl

/-- Witness for C10 at a concrete single-line response. -/
theorem C10_marker_lines_contribute_nothing_witness :
    check_response ["<html><body>FAIL station unknown</body></html>"] =
      Except.error (PostError.failed ("Server response: " ++ "")) :=
  C10_marker_lines_contribute_nothing.2.2
    "<html><body>FAIL station unknown</body></html>" (by decide)

theorem lookup_eq_none_of_keys {β : Type} (k : String) (l : List (String × β))
    (h : ∀ kv ∈ l, kv.1 ≠ k) : l.lookup k = none := by
  induction l with
  | nil => rfl
  | cons kv rest ih =>
    have hk := h kv (List.mem_cons_self kv rest)
    rw [show kv = (kv.1, kv.2) from rfl, List.lookup_cons]
    have : (k == kv.1) = false := by
      simp only [beq_eq_false_iff_ne]
      exact fun he => hk he.symm
    rw [this]
    exact ih (fun kv' h' => h kv' (List.mem_cons_of_mem kv h'))

theorem lookup_mappedTable (tbl : List (String × String × Nat)) (r : Rec)
    (k rk : String) (p : Nat) (hmem : (k, rk, p) ∈ tbl)
    (hnd : (tbl.map (fun e => e.1)).Nodup) :
    (tbl.filterMap
      (fun e => (getVal r e.2.1).map (fun v => (e.1, fmtFixed e.2.2 v)))).lookup k
      = (getVal r rk).map (fmtFixed p) := by
  induction tbl with
  | nil => cases hmem
  | cons e rest ih =>
    rcases List.mem_cons.mp hmem with heq | htail
    · rcases e with ⟨k', rk', p'⟩
      cases heq
      rw [List.filterMap_cons]
      cases hv : getVal r rk with
      | some v =>
        simp only [hv, Option.map_some']
        rw [List.lookup_cons]
        simp
      | none =>
        simp only [hv, Option.map_none']
        apply lookup_eq_none_of_keys
        intro kv hkv
        rcases List.mem_filterMap.mp hkv with ⟨e', he', hfe⟩
        rcases hfv : getVal r e'.2.1 with _ | v
        · rw [hfv] at hfe; cases hfe
        · rw [hfv] at hfe
          cases hfe
          have hknot : k ∉ rest.map (fun e => e.1) := by
            have := List.nodup_cons.mp hnd
            simpa using this.1
          intro hke
          exact hknot (hke ▸ List.mem_map_of_mem (fun e => e.1) he')
    · rcases e with ⟨k', rk', p'⟩
      have hne : k' ≠ k := by
        have := (List.nodup_cons.mp hnd).1
        intro he
        apply this
        have : k ∈ rest.map (fun e => e.1) :=
          List.mem_map_of_mem (fun e => e.1) htail
        simpa [he] using this
      rw [List.filterMap_cons]
      cases hv : getVal r rk' with
      | some v =>
        simp only [hv, Option.map_some']
        rw [List.lookup_cons]
        have : (k == k') = false := by
          simp only [beq_eq_false_iff_ne]
          exact fun he => hne he.symm
        rw [this]
        exact ih htail (List.nodup_cons.mp hnd).2
      | none =>
        simp only [hv, Option.map_none']
        exact ih htail (List.nodup_cons.mp hnd).2

theorem format_url_ok_shape (toM : Rec → Rec) (convert : UnitConvert)
    (lt : ℚ → Tm) (sid pwd su : String) (in_record : Rec) (url : String)
    (h : format_url toM convert lt sid pwd su in_record = Except.ok url) :
    ∃ r dt, knotSteps convert (toM in_record) = Except.ok r ∧
      getVal r "dateTime" = some dt ∧
      url = su ++ "?" ++ urlencode (buildValues lt sid pwd r dt) := by
  unfold format_url at h
  cases hks : knotSteps convert (toM in_record) with
  | error e => rw [hks] at h; cases h
  | ok r =>
    rw [hks] at h
    dsimp only at h
    cases hdt : getVal r "dateTime" with
    | none => rw [hdt] at h; cases h
    | some dt =>
      rw [hdt] at h
      injection h with h'
      exact ⟨r, dt, rfl, hdt, h'.symm⟩

/-- C3: whenever `format_url` produces a URL, its query string is the encoded
`values` dictionary, and for every `_DATA_MAP` entry the dictionary carries
the wire key exactly when the source field is present and non-null in the
converted record — in which case its value is the field formatted with that
entry's format — and omits it otherwise. -/
theorem C3_mapped_params_iff_present (toM : Rec → Rec) (convert : UnitConvert)
    (lt : ℚ → Tm) (sid pwd su : String) (in_record : Rec) (url : String)
    (h : format_url toM convert lt sid pwd su in_record = Except.ok url) :
    ∃ r dt, knotSteps convert (toM in_record) = Except.ok r ∧
      getVal r "dateTime" = some dt ∧
      url = su ++ "?" ++ urlencode (buildValues lt sid pwd r dt) ∧
      ∀ k rk : String, ∀ p : Nat, (k, rk, p) ∈ _DATA_MAP →
        (buildValues lt sid pwd r dt).lookup k = (getVal r rk).map (fmtFixed p) := by
  rcases format_url_ok_shape toM convert lt sid pwd su in_record url h with
    ⟨r, dt, h1, h2, h3⟩
  refine ⟨r, dt, h1, h2, h3, ?_⟩
  intro k rk p hmem
  have hmt := lookup_mappedTable _DATA_MAP r k rk p hmem (by decide)
  have hk : k ≠ "sender_id" ∧ k ≠ "password" ∧ k ≠ "date" ∧ k ≠ "time" := by
    have hkeys : k ∈ _DATA_MAP.map (fun e => e.1) :=
      List.mem_map_of_mem (fun e => e.1) hmem
    fin_cases hkeys <;> exact ⟨by decide, by decide, by decide, by decide⟩
  have b1 : (k == "sender_id") = false := beq_eq_false_iff_ne.mpr hk.1
  have b2 : (k == "password") = false := beq_eq_false_iff_ne.mpr hk.2.1
  have b3 : (k == "date") = false := beq_eq_false_iff_ne.mpr hk.2.2.1
  have b4 : (k == "time") = false := beq_eq_false_iff_ne.mpr hk.2.2.2
  unfold buildValues
  simp only [List.cons_append, List.nil_append, List.lookup_cons, b1, b2, b3, b4]
  exact hmt

/-- Witness for C3 at a record carrying only `dateTime` and `outTemp`. -/
theorem C3_mapped_params_iff_present_witness :
    ∃ r dt,
      knotSteps weewxSpeedConvert [("dateTime", some (0 : ℚ)),
        ("outTemp", some (20 : ℚ))] = Except.ok r ∧
      getVal r "dateTime" = some dt ∧
      _SERVER_URL ++ "?" ++ urlencode (buildValues (fun _ => ⟨2020, 1, 2, 3, 4⟩)
        "sid" "pwd" [("dateTime", some (0 : ℚ)), ("outTemp", some (20 : ℚ))] 0) =
        _SERVER_URL ++ "?" ++ urlencode (buildValues (fun _ => ⟨2020, 1, 2, 3, 4⟩)
          "sid" "pwd" r dt) ∧
      ∀ k rk : String, ∀ p : Nat, (k, rk, p) ∈ _DATA_MAP →
        (buildValues (fun _ => ⟨2020, 1, 2, 3, 4⟩) "sid" "pwd" r dt).lookup k =
          (getVal r rk).map (fmtFixed p) :=
  C3_mapped_params_iff_present id weewxSpeedConvert (fun _ => ⟨2020, 1, 2, 3, 4⟩)
    "sid" "pwd" _SERVER_URL [("dateTime", some (0 : ℚ)), ("outTemp", some (20 : ℚ))]
    (_SERVER_URL ++ "?" ++ urlencode (buildValues (fun _ => ⟨2020, 1, 2, 3, 4⟩)
      "sid" "pwd" [("dateTime", some (0 : ℚ)), ("outTemp", some (20 : ℚ))] 0)) rfl

/-- C4: whenever `format_url` produces a URL, that URL is the server URL
followed by the URL-encoded `values` dictionary, which always opens with
`sender_id` (the configured station id), `password` (the configured
password), `date` in zero-padded `DD.MM.YYYY` form and `time` in zero-padded
`HH:MM` form, both obtained by applying the local-time collaborator to the
converted record's `dateTime` — whatever other fields are present. -/
theorem C4_credentials_and_local_datetime_always_present (toM : Rec → Rec)
    (convert : UnitConvert) (lt : ℚ → Tm) (sid pwd su : String)
    (in_record : Rec) (url : String)
    (h : format_url toM convert lt sid pwd su in_record = Except.ok url) :
    ∃ r dt, knotSteps convert (toM in_record) = Except.ok r ∧
      getVal r "dateTime" = some dt ∧
      url = su ++ "?" ++ urlencode
        ([("sender_id", sid), ("password", pwd),
          ("date", pad2 (lt dt).day ++ "." ++ pad2 (lt dt).month ++ "." ++
            toString (lt dt).year),
          ("time", pad2 (lt dt).hour ++ ":" ++ pad2 (lt dt).minute)] ++
          mappedParams r) := by
  rcases format_url_ok_shape toM convert lt sid pwd su in_record url h with
    ⟨r, dt, h1, h2, h3⟩
  exact ⟨r, dt, h1, h2, h3⟩

/-- Witness for C4 at a record carrying only `dateTime`. -/
theorem C4_credentials_and_local_datetime_always_present_witness :
    ∃ r dt,
      knotSteps weewxSpeedConvert [("dateTime", some (0 : ℚ))] = Except.ok r ∧
      getVal r "dateTime" = some dt ∧
      _SERVER_URL ++ "?" ++ urlencode (buildValues (fun _ => ⟨2020, 1, 2, 3, 4⟩)
        "sid" "pwd" [("dateTime", some (0 : ℚ))] 0) =
        _SERVER_URL ++ "?" ++ urlencode
          ([("sender_id", "sid"), ("password", "pwd"),
            ("date", pad2 ((fun (_ : ℚ) => (⟨2020, 1, 2, 3, 4⟩ : Tm)) dt).day ++ "." ++
              pad2 ((fun (_ : ℚ) => (⟨2020, 1, 2, 3, 4⟩ : Tm)) dt).month ++ "." ++
              toString ((fun (_ : ℚ) => (⟨2020, 1, 2, 3, 4⟩ : Tm)) dt).year),
            ("time", pad2 ((fun (_ : ℚ) => (⟨2020, 1, 2, 3, 4⟩ : Tm)) dt).hour ++ ":" ++
              pad2 ((fun (_ : ℚ) => (⟨2020, 1, 2, 3, 4⟩ : Tm)) dt).minute)] ++
            mappedParams r) :=
  C4_credentials_and_local_datetime_always_present id weewxSpeedConvert
    (fun _ => ⟨2020, 1, 2, 3, 4⟩) "sid" "pwd" _SERVER_URL
    [("dateTime", some (0 : ℚ))]
    (_SERVER_URL ++ "?" ++ urlencode (buildValues (fun _ => ⟨2020, 1, 2, 3, 4⟩)
      "sid" "pwd" [("dateTime", some (0 : ℚ))] 0)) rfl

/-- C5 counterexample: with a unit converter that fails with an unknown-unit
error, `format_url` on a record containing `windSpeed` and `outTemp` does not
produce a payload with the failing field omitted — it fails outright,
producing nothing at all. -/
theorem C5_counterexample :
    format_url id (fun _ _ _ => Except.error "Unknown unit")
        (fun _ => ⟨2014, 6, 10, 17, 13⟩) "ws" "pw" _SERVER_URL
        [("dateTime", some 0), ("windSpeed", some 5), ("outTemp", some 20)] =
      Except.error "Unknown unit" := rfl

/-- C5 (amended): if the conversion of a present `windSpeed` fails, the
failure propagates: `format_url` fails with that very error and no payload
is produced — the field is not omitted and the transform does not proceed. -/
theorem C5_unknown_unit_aborts_transform (toM : Rec → Rec)
    (convert : UnitConvert) (lt : ℚ → Tm) (sid pwd su : String)
    (in_record : Rec) (v : ℚ) (e : String)
    (hv : getVal (toM in_record) "windSpeed" = some v)
    (he : convert "meter_per_second" "knot" v = Except.error e) :
    format_url toM convert lt sid pwd su in_record = Except.error e := by
  unfold format_url knotSteps knotStep _mps_to_knot
  rw [hv]
  dsimp only
  rw [he]
  rfl

/-- Witness for C5 (amended) at a concrete record and failing converter. -/
theorem C5_unknown_unit_aborts_transform_witness :
    format_url id (fun _ _ _ => Except.error "no such unit")
        (fun _ => ⟨2014, 6, 10, 17, 13⟩) "s" "p" _SERVER_URL
        [("dateTime", some 0), ("windSpeed", some 7)] =
      Except.error "no such unit" :=
  C5_unknown_unit_aborts_transform id (fun _ _ _ => Except.error "no such unit")
    (fun _ => ⟨2014, 6, 10, 17, 13⟩) "s" "p" _SERVER_URL
    [("dateTime", some 0), ("windSpeed", some 7)] 7 "no such unit" rfl rfl

/-- C9: on the record `{dateTime: 1402420380, windSpeed: 5 m/s,
outTemp: 20 °C}` the produced URL carries `windspeed=9.7` (5 m/s is 4500/463
≈ 9.719 knots, formatted `%.1f`) and `airtemp=20.0` (formatted `%.1f`),
together with the always-present credentials and local date/time, and no
`winddir`, `gust`, `pressure` or `rain` key, their source fields being
absent. -/
theorem C9_round_trip_payload :
    format_url id weewxSpeedConvert (fun _ => ⟨2014, 6, 10, 17, 13⟩)
        "myStation" "myPassword" _SERVER_URL
        [("dateTime", some 1402420380), ("windSpeed", some 5),
         ("outTemp", some 20)] =
      Except.ok "http://www.windfinder.com/wind-cgi/httpload.pl?sender_id=myStation&password=myPassword&date=10.06.2014&time=17%3A13&airtemp=20.0&windspeed=9.7" := by
  have hmul : (5 * (3600 / 1852) : ℚ) = 4500 / 463 := by norm_num
  have hws : fmtFixed 1 (4500 / 463 : ℚ) = "9.7" := by
    have hf : (⌊(4500 / 463 : ℚ) * (10 : ℚ) ^ (1 : ℕ) + 1 / 2⌋ : ℤ) = 97 := by
      norm_num
    simp only [fmtFixed]
    rw [hf]
    rfl
  have hat : fmtFixed 1 (20 : ℚ) = "20.0" := by
    have hf : (⌊(20 : ℚ) * (10 : ℚ) ^ (1 : ℕ) + 1 / 2⌋ : ℤ) = 200 := by
      norm_num
    simp only [fmtFixed]
    rw [hf]
    rfl
  have step1 : format_url id weewxSpeedConvert (fun _ => ⟨2014, 6, 10, 17, 13⟩)
      "myStation" "myPassword" _SERVER_URL
      [("dateTime", some 1402420380), ("windSpeed", some 5),
       ("outTemp", some 20)] =
      Except.ok (_SERVER_URL ++ "?" ++
        urlencode (buildValues (fun _ => ⟨2014, 6, 10, 17, 13⟩) "myStation"
          "myPassword"
          (setVal [("dateTime", some 1402420380), ("windSpeed", some 5),
            ("outTemp", some 20)] "windSpeed" (some (5 * (3600 / 1852))))
          1402420380)) := rfl
  rw [step1, hmul]
  have step2 : buildValues (fun _ => ⟨2014, 6, 10, 17, 13⟩) "myStation"
      "myPassword"
      (setVal [("dateTime", some 1402420380), ("windSpeed", some 5),
        ("outTemp", some 20)] "windSpeed" (some (4500 / 463))) 1402420380 =
      [("sender_id", "myStation"), ("password", "myPassword"),
       ("date", "10.06.2014"), ("time", "17:13"),
       ("airtemp", fmtFixed 1 20), ("windspeed", fmtFixed 1 (4500 / 463))] := rfl
  rw [step2, hws, hat]
  rfl

/-- C7: if `station_id` or `password` is absent at startup the service
constructor returns without starting the upload thread and without binding to
new-record events (it never raises — the function is total); when both are
present it starts the worker and registers for new-record events. -/
theorem C7_init_requires_credentials :
    (∀ station_id password : Option String,
      station_id = none ∨ password = none →
      windfinder_init station_id password = ⟨false, false⟩) ∧
    (∀ s p : String, windfinder_init (some s) (some p) = ⟨true, true⟩) := by
  constructor
  · rintro sid pwd (rfl | rfl)
    · rfl
    · cases sid <;> rfl
  · intro s p
    rfl

/-- Witness for C7: one missing-credential start and one full start. -/
theorem C7_init_requires_credentials_witness :
    windfinder_init none (some "pw") = ⟨false, false⟩ ∧
    windfinder_init (some "id") (some "pw") = ⟨true, true⟩ :=
  ⟨C7_init_requires_credentials.1 none (some "pw") (Or.inl rfl),
   C7_init_requires_credentials.2 "id" "pw"⟩

/-- C8 counterexample: with `max_backlog = 1` configured, two new-record
events leave two jobs in the service's queue — the facade applies no backlog
cap at push time. -/
theorem C8_counterexample :
    ((new_archive_record (new_archive_record ⟨[], 1⟩ [("outTemp", some 1)])
        [("outTemp", some 2)]).queue.length = 2) ∧
    ¬ ((new_archive_record (new_archive_record ⟨[], 1⟩ [("outTemp", some 1)])
        [("outTemp", some 2)]).queue.length ≤
      (new_archive_record (new_archive_record ⟨[], 1⟩ [("outTemp", some 1)])
        [("outTemp", some 2)]).maxBacklog) := by
  exact ⟨rfl, by decide⟩

/-- C8 (amended): the enqueuing facade pushes unconditionally — after any
sequence of new-record events the queue holds every pushed record in arrival
order, whatever `maxBacklog` is configured; nothing is dropped at push time
(backlog trimming is left to the worker loop of the external weewx
`RESTThread` base class). -/
theorem C8_push_is_unconditional (st : ServiceState) (rs : List Rec) :
    (rs.foldl new_archive_record st).queue = st.queue ++ rs ∧
    (rs.foldl new_archive_record st).maxBacklog = st.maxBacklog := by
  induction rs generalizing st with
  | nil => exact ⟨by simp, rfl⟩
  | cons r rs ih =>
    rcases ih (new_archive_record st r) with ⟨h1, h2⟩
    refine ⟨?_, ?_⟩
    · rw [List.foldl_cons, h1]
      simp [new_archive_record]
    · rw [List.foldl_cons, h2]
      rfl

theorem isPrefixOfEq (p l : List Char) : p.isPrefixOf l = true ↔ p <+: l :=
  List.isPrefixOf_iff_prefix

theorem containsSubEq (p l : List Char) : containsSub p l = true ↔ p <:+: l := by
  induction l with
  | nil =>
    rw [containsSub, isPrefixOfEq]
    constructor
    · intro h
      exact h.isInfix
    · intro h
      rw [List.infix_nil] at h
      subst h
      exact List.nil_prefix
  | cons c cs ih =>
    rw [containsSub, List.infix_cons_iff, Bool.or_eq_true, isPrefixOfEq, ih]

theorem strDataAppend (s t : String) : (s ++ t).data = s.data ++ t.data := by
  cases s
  cases t
  rfl

theorem strMkData (s : String) : String.mk s.data = s := by
  cases s
  rfl

theorem dropWhileLenLe (p : Char → Bool) (l : List Char) :
    (l.dropWhile p).length ≤ l.length := by
  induction l with
  | nil => simp
  | cons c cs ih =>
    rw [List.dropWhile]
    cases hp : p c
    · simp
    · simpa using Nat.le_succ_of_le ih

theorem redactFuel_congr (f1 : Nat) : ∀ (f2 : Nat) (l : List Char),
    l.length ≤ f1 → l.length ≤ f2 → redactFuel f1 l = redactFuel f2 l := by
  induction f1 with
  | zero =>
    intro f2 l h1 _
    have : l = [] := List.eq_nil_of_length_eq_zero (Nat.le_zero.mp h1)
    subst this
    cases f2 <;> rfl
  | succ f1 ih =>
    intro f2 l h1 h2
    cases l with
    | nil => cases f2 <;> rfl
    | cons c cs =>
      cases f2 with
      | zero => exact absurd h2 (by simp)
      | succ f2 =>
        rw [redactFuel, redactFuel]
        simp only [List.length_cons] at h1 h2
        by_cases hp : "password=".data.isPrefixOf (c :: cs) = true
        · rw [if_pos hp, if_pos hp]
          have hl : (((c :: cs).drop 9).dropWhile (fun a => a != '&')).length ≤
              (c :: cs).length - 9 := by
            calc (((c :: cs).drop 9).dropWhile (fun a => a != '&')).length
                ≤ ((c :: cs).drop 9).length := dropWhileLenLe _ _
              _ = (c :: cs).length - 9 := List.length_drop _ _
          simp only [List.length_cons] at hl
          exact congrArg _ (ih f2 _ (by omega) (by omega))
        · rw [if_neg hp, if_neg hp]
          exact congrArg _ (ih f2 cs (by omega) (by omega))

theorem redactChars_cons_nomatch {c : Char} {cs : List Char}
    (h : ¬ "password=".data <+: (c :: cs)) :
    redactChars (c :: cs) = c :: redactChars cs := by
  have hb : "password=".data.isPrefixOf (c :: cs) = false := by
    cases hx : "password=".data.isPrefixOf (c :: cs)
    · rfl
    · exact absurd ((isPrefixOfEq _ _).mp hx) h
  show redactFuel (cs.length + 1) (c :: cs) = c :: redactFuel cs.length cs
  rw [redactFuel, if_neg (by simp [hb])]

theorem redactChars_append_match (rest : List Char) :
    redactChars ("password=".data ++ rest) =
      "password=XXX".data ++ redactChars (rest.dropWhile (fun a => a != '&')) := by
  show redactFuel (('p':: 'a':: 's':: 's':: 'w':: 'o':: 'r':: 'd':: '='::rest).length)
      ('p':: 'a':: 's':: 's':: 'w':: 'o':: 'r':: 'd':: '='::rest) = _
  rw [show ('p':: 'a':: 's':: 's':: 'w':: 'o':: 'r':: 'd':: '='::rest).length =
    (rest.length + 8) + 1 from by simp]
  rw [redactFuel]
  rw [if_pos ((isPrefixOfEq "password=".data
    ('p':: 'a':: 's':: 's':: 'w':: 'o':: 'r':: 'd':: '='::rest)).mpr ⟨rest, rfl⟩)]
  show "password=XXX".data ++
      redactFuel (rest.length + 8) (rest.dropWhile (fun a => a != '&')) = _
  exact congrArg _ (redactFuel_congr _ _ _
    (le_trans (dropWhileLenLe _ _) (by omega)) (le_refl _))

theorem sep_unique (u : List Char) : ∀ (A y B : List Char), '=' ∉ u → '=' ∉ A →
    u ++ '=' :: y = A ++ '=' :: B → u = A ∧ y = B := by
  induction u with
  | nil =>
    intro A y B _ hA h
    cases A with
    | nil =>
      refine ⟨rfl, ?_⟩
      simpa using h
    | cons a A' =>
      injection h with h1 h2
      exact absurd (by rw [← h1]; exact List.mem_cons_self _ _ : ('=') ∈ a :: A') hA
  | cons c u' ih =>
    intro A y B hu hA h
    cases A with
    | nil =>
      injection h with h1 h2
      exact absurd (by rw [h1]; exact List.mem_cons_self _ _ : ('=') ∈ c :: u') hu
    | cons a A' =>
      injection h with h1 h2
      subst h1
      have := ih A' y B (fun hm => hu (List.mem_cons_of_mem _ hm))
        (fun hm => hA (List.mem_cons_of_mem _ hm)) h2
      exact ⟨by rw [this.1], this.2⟩

theorem pref_cancel {u a b : List Char} (h : u ++ a <+: u ++ b) : a <+: b := by
  rcases h with ⟨t, ht⟩
  rw [List.append_assoc] at ht
  exact ⟨t, List.append_cancel_left ht⟩

theorem suffix_split {u₂ a b : List Char} (h : u₂ <:+ a ++ b) :
    u₂ <:+ b ∨ ∃ a₂, a₂ ≠ [] ∧ a₂ <:+ a ∧ u₂ = a₂ ++ b := by
  rcases h with ⟨x, hx⟩
  rcases List.append_eq_append_iff.mp hx with ⟨a', ha1, ha2⟩ | ⟨c', hc1, hc2⟩
  · cases a' with
    | nil =>
      left
      rw [ha2]
      exact List.suffix_rfl
    | cons z zs =>
      right
      exact ⟨z :: zs, by simp, ⟨x, ha1.symm⟩, ha2⟩
  · left
    exact ⟨c', hc2.symm⟩

theorem no_pat_in_seg {k v w : List Char} (hk : '=' ∉ k) (hv : '=' ∉ v)
    (hbad : ¬ "password".data <:+ k)
    (hw : w = [] ∨ ∃ w', w = '&' :: w') :
    ∀ u₂, u₂ <:+ (k ++ '=' :: v) → u₂ ≠ [] →
      ¬ "password=".data <+: (u₂ ++ w) := by
  intro u₂ hsuf hne hpref
  rcases suffix_split hsuf with hsv | ⟨k₂, hk₂ne, hk₂suf, hu₂⟩
  · rcases List.suffix_cons_iff.mp hsv with he | hv₂
    · subst he
      rw [List.cons_append] at hpref
      rw [show "password=".data = 'p' :: "assword=".data from rfl] at hpref
      exact absurd (List.cons_prefix_cons.mp hpref).1 (by decide)
    · rcases List.prefix_or_prefix_of_prefix hpref (List.prefix_append u₂ w)
        with hp | hp
      · have : '=' ∈ u₂ := hp.subset (by decide)
        exact hv (hv₂.subset this)
      · rcases hp with ⟨t, ht⟩
        rcases t with _ | ⟨c, t'⟩
        · have hu₂eq : u₂ = "password=".data := by simpa using ht
          have : '=' ∈ u₂ := by
            rw [hu₂eq]
            decide
          exact hv (hv₂.subset this)
        · rw [← ht] at hpref
          have hcw : (c :: t') <+: w := pref_cancel hpref
          rcases hw with rfl | ⟨w', rfl⟩
          · rcases hcw with ⟨r, hr⟩
            cases hr
          · have hc : c = '&' := (List.cons_prefix_cons.mp hcw).1
            have hcp : c ∈ "password=".data := by
              rw [← ht]
              exact List.mem_append_right _ (List.mem_cons_self _ _)
            rw [hc] at hcp
            exact absurd hcp (by decide)
  · subst hu₂
    rw [List.append_assoc, List.cons_append] at hpref
    rcases List.prefix_or_prefix_of_prefix hpref (List.prefix_append k₂ _)
      with hp | hp
    · have : '=' ∈ k₂ := hp.subset (by decide)
      exact hk (hk₂suf.subset this)
    · rcases hp with ⟨t, ht⟩
      rcases t with _ | ⟨c, t'⟩
      · have : '=' ∈ k₂ := by
          have hke : k₂ = "password=".data := by simpa using ht
          rw [hke]
          decide
        exact hk (hk₂suf.subset this)
      · rw [← ht] at hpref
        have hct : (c :: t') <+: ('=' :: (v ++ w)) := pref_cancel hpref
        have hc : c = '=' := (List.cons_prefix_cons.mp hct).1
        subst hc
        have heq : "password".data ++ '=' :: [] = k₂ ++ '=' :: t' := by
          rw [show "password".data ++ '=' :: [] = "password=".data from rfl, ← ht]
        have hsep := sep_unique "password".data k₂ [] t' (by decide)
          (fun hm => hk (hk₂suf.subset hm)) heq
        exact hbad (by rw [hsep.1]; exact hk₂suf)

theorem redact_skip_seg (u : List Char) : ∀ w : List Char,
    (∀ u₂, u₂ <:+ u → u₂ ≠ [] → ¬ "password=".data <+: (u₂ ++ w)) →
    redactChars (u ++ w) = u ++ redactChars w := by
  induction u with
  | nil =>
    intro w _
    simp
  | cons c u' ih =>
    intro w hno
    rw [List.cons_append]
    rw [redactChars_cons_nomatch (by
      have := hno (c :: u') List.suffix_rfl (by simp)
      exact fun hp => this hp)]
    rw [ih w (fun u₂ hs hn => hno u₂ (hs.trans (List.suffix_cons c u')) hn)]
    rfl

theorem dropWhile_all {v : List Char} (h : ∀ c ∈ v, c ≠ '&') :
    v.dropWhile (fun a => a != '&') = [] := by
  induction v with
  | nil => rfl
  | cons c cs ih =>
    rw [List.dropWhile_cons,
      if_pos (bne_iff_ne.mpr (h c (List.mem_cons_self _ _)))]
    exact ih (fun c' hc' => h c' (List.mem_cons_of_mem _ hc'))

theorem pat_not_pref_amp (l : List Char) :
    ¬ "password=".data <+: ('&' :: l) := by
  intro hp
  rw [show "password=".data = 'p' :: "assword=".data from rfl] at hp
  exact absurd (List.cons_prefix_cons.mp hp).1 (by decide)

theorem amp_ne_of_not_mem {v : List Char} (h : '&' ∉ v) : ∀ c ∈ v, c ≠ '&' :=
  fun _ hc he => h (he ▸ hc)

theorem redact_qstring : ∀ ps : List (List Char × List Char),
    (∀ kv ∈ ps, goodKey kv.1 ∧ goodVal kv.2) →
    redactChars (qstring ps) =
      qstring (ps.map (fun kv =>
        if kv.1 = "password".data then (kv.1, "XXX".data) else kv)) := by
  intro ps
  induction ps with
  | nil => intro _; rfl
  | cons kv rest ih =>
    intro h
    rcases kv with ⟨k, v⟩
    have hkv := h (k, v) (List.mem_cons_self _ _)
    have hgk := hkv.1
    have hgv := hkv.2
    have hrest : ∀ kv ∈ rest, goodKey kv.1 ∧ goodVal kv.2 :=
      fun kv hm => h kv (List.mem_cons_of_mem _ hm)
    have hbad : k ≠ "password".data → ¬ "password".data <:+ k := by
      intro hne
      rcases hgk.2.2 with he | hns
      · exact absurd he hne
      · exact hns
    cases rest with
    | nil =>
      by_cases hpk : k = "password".data
      · subst hpk
        show redactChars ("password=".data ++ v) = _
        rw [redactChars_append_match v,
          dropWhile_all (amp_ne_of_not_mem hgv.2)]
        show "password=XXX".data ++ [] = _
        rw [List.append_nil]
        rfl
      · have hq : qstring [((k : List Char), v)] = (k ++ '=' :: v) ++ [] := by
          rw [List.append_nil]
          rfl
        rw [hq]
        rw [redact_skip_seg (k ++ '=' :: v) []
          (no_pat_in_seg hgk.1 hgv.1 (hbad hpk) (Or.inl rfl))]
        rw [show redactChars [] = [] from rfl, List.append_nil]
        rw [List.map_cons]
        rw [if_neg hpk]
        rfl
    | cons kv' rest' =>
      by_cases hpk : k = "password".data
      · subst hpk
        show redactChars ("password=".data ++ (v ++ '&' :: qstring (kv' :: rest'))) = _
        rw [redactChars_append_match (v ++ '&' :: qstring (kv' :: rest')),
          List.dropWhile_append, dropWhile_all (amp_ne_of_not_mem hgv.2)]
        rw [show (([] : List Char).isEmpty = true) from rfl]
        rw [if_pos rfl]
        rw [List.dropWhile_cons]
        rw [if_neg (by simp)]
        rw [redactChars_cons_nomatch (pat_not_pref_amp _)]
        rw [ih hrest]
        rfl
      · show redactChars ((k ++ '=' :: v) ++ ('&' :: qstring (kv' :: rest'))) = _
        rw [redact_skip_seg (k ++ '=' :: v) ('&' :: qstring (kv' :: rest'))
          (no_pat_in_seg hgk.1 hgv.1 (hbad hpk)
            (Or.inr ⟨qstring (kv' :: rest'), rfl⟩))]
        rw [redactChars_cons_nomatch (pat_not_pref_amp _)]
        rw [ih hrest]
        rw [List.map_cons, List.map_cons]
        rw [if_neg hpk]
        rfl

theorem urlencode_data : ∀ ps : List (String × String), (urlencode ps).data =
    qstring (ps.map (fun kv => ((quotePlus kv.1).data, (quotePlus kv.2).data))) := by
  intro ps
  induction ps with
  | nil => rfl
  | cons kv rest ih =>
    cases rest with
    | nil =>
      show ((quotePlus kv.1 ++ "=" ++ quotePlus kv.2) : String).data = _
      rw [strDataAppend, strDataAppend]
      show ((quotePlus kv.1).data ++ ['=']) ++ (quotePlus kv.2).data = _
      rw [List.append_assoc]
      rfl
    | cons kv' rest' =>
      show ((quotePlus kv.1 ++ "=" ++ quotePlus kv.2) ++ "&" ++
        urlencode (kv' :: rest')).data = _
      rw [strDataAppend, strDataAppend, strDataAppend, strDataAppend, ih]
      rw [List.append_assoc ((quotePlus kv.1).data) ("=".data)
        ((quotePlus kv.2).data)]
      rw [List.append_assoc]
      rfl

theorem hexDigit_ne (n : Nat) : hexDigit n ≠ '=' ∧ hexDigit n ≠ '&' := by
  obtain ⟨m, hm⟩ : ∃ m, n % 16 = m := ⟨_, rfl⟩
  have hb : m < 16 := hm ▸ Nat.mod_lt _ (by norm_num)
  unfold hexDigit
  rw [hm]
  interval_cases m <;> exact ⟨by decide, by decide⟩

theorem quotePlusChar_ne (c : Char) : ∀ d ∈ quotePlusChar c, d ≠ '=' ∧ d ≠ '&' := by
  intro d hd
  unfold quotePlusChar at hd
  by_cases h1 : c = ' '
  · rw [if_pos h1] at hd
    simp only [List.mem_singleton] at hd
    subst hd
    exact ⟨by decide, by decide⟩
  · rw [if_neg h1] at hd
    by_cases h2 : isSafeChar c = true
    · rw [if_pos h2] at hd
      simp only [List.mem_singleton] at hd
      subst hd
      constructor
      · intro he
        rw [he] at h2
        exact absurd h2 (by decide)
      · intro he
        rw [he] at h2
        exact absurd h2 (by decide)
    · rw [if_neg h2] at hd
      rcases List.mem_flatMap.mp hd with ⟨b, _, hdb⟩
      simp only [List.mem_cons, List.mem_singleton, List.not_mem_nil,
        or_false] at hdb
      rcases hdb with rfl | rfl | rfl
      · exact ⟨by decide, by decide⟩
      · exact ⟨(hexDigit_ne _).1, (hexDigit_ne _).2⟩
      · exact ⟨(hexDigit_ne _).1, (hexDigit_ne _).2⟩

theorem quotePlus_goodVal (s : String) : goodVal (quotePlus s).data := by
  constructor
  · intro hm
    rcases List.mem_flatMap.mp hm with ⟨c, _, hd⟩
    exact (quotePlusChar_ne c '=' hd).1 rfl
  · intro hm
    rcases List.mem_flatMap.mp hm with ⟨c, _, hd⟩
    exact (quotePlusChar_ne c '&' hd).2 rfl

theorem goodKey_quotePlus_wfKeys (k : String) (hk : k ∈ wfKeys) :
    goodKey (quotePlus k).data := by
  have hgv := quotePlus_goodVal k
  refine ⟨hgv.1, hgv.2, ?_⟩
  fin_cases hk <;> decide

theorem buildValues_keys (lt : ℚ → Tm) (sid pwd : String) (r : Rec) (dt : ℚ) :
    ∀ kv ∈ buildValues lt sid pwd r dt, kv.1 ∈ wfKeys := by
  intro kv hkv
  unfold buildValues at hkv
  rcases List.mem_append.mp hkv with hb | hm
  · fin_cases hb <;> simp [wfKeys]
  · rcases List.mem_filterMap.mp hm with ⟨e, he, hfe⟩
    cases hgv : getVal r e.2.1 with
    | none =>
      rw [hgv] at hfe
      cases hfe
    | some v =>
      rw [hgv] at hfe
      simp only [Option.map_some'] at hfe
      injection hfe with hfe'
      subst hfe'
      fin_cases he <;> simp [wfKeys]

theorem encode_substPwd (ps : List (String × String))
    (hks : ∀ kv ∈ ps, kv.1 ∈ wfKeys) :
    (substPwd ps).map (fun kv => ((quotePlus kv.1).data, (quotePlus kv.2).data)) =
      (ps.map (fun kv => ((quotePlus kv.1).data, (quotePlus kv.2).data))).map
        (fun kv => if kv.1 = "password".data then (kv.1, "XXX".data) else kv) := by
  unfold substPwd
  rw [List.map_map, List.map_map]
  apply List.map_congr_left
  intro kv hkv
  rcases kv with ⟨k, v⟩
  have hk := hks (k, v) hkv
  fin_cases hk <;> rfl

theorem redact_prefix_skip (w : List Char) :
    redactChars (("http://www.windfinder.com/wind-cgi/httpload.pl?").data ++ w) =
      ("http://www.windfinder.com/wind-cgi/httpload.pl?").data ++
        redactChars w := by
  apply redact_skip_seg
  intro u₂ hsuf hne hpref
  have hsuf' : u₂ <:+
      ("http://www.windfinder.com/wind-cgi/httpload.pl").data ++ ['?'] := hsuf
  rcases suffix_split hsuf' with h1 | ⟨a₂, ha₂ne, ha₂suf, hu₂⟩
  · rcases List.suffix_cons_iff.mp h1 with rfl | h2
    · rw [show "password=".data = 'p' :: "assword=".data from rfl] at hpref
      rw [List.cons_append] at hpref
      exact absurd (List.cons_prefix_cons.mp hpref).1 (by decide)
    · rw [List.suffix_nil] at h2
      exact hne h2
  · subst hu₂
    rw [List.append_assoc] at hpref
    rcases ha₂suf with ⟨s, hs⟩
    rcases List.prefix_or_prefix_of_prefix hpref (List.prefix_append a₂ _)
      with hp | hp
    · rcases hp with ⟨t, ht⟩
      have hinf : "password=".data <:+:
          ("http://www.windfinder.com/wind-cgi/httpload.pl?").data := by
        refine ⟨s, t ++ ['?'], ?_⟩
        show (s ++ "password=".data) ++ (t ++ ['?']) = _
        calc (s ++ "password=".data) ++ (t ++ ['?'])
            = ((s ++ "password=".data) ++ t) ++ ['?'] := by
              rw [List.append_assoc (s ++ "password=".data)]
          _ = (s ++ ("password=".data ++ t)) ++ ['?'] := by
              rw [List.append_assoc s]
          _ = (s ++ a₂) ++ ['?'] := by rw [ht]
          _ = ("http://www.windfinder.com/wind-cgi/httpload.pl").data ++ ['?'] := by
              rw [hs]
      have hcs : containsSub "password=".data
          ("http://www.windfinder.com/wind-cgi/httpload.pl?").data = true :=
        (containsSubEq _ _).mpr hinf
      exact absurd hcs (by decide)
    · rcases hp with ⟨t, ht⟩
      rcases t with _ | ⟨c, t'⟩
      · have ha₂eq : a₂ = "password=".data := by simpa using ht
        have hinf : "password=".data <:+:
            ("http://www.windfinder.com/wind-cgi/httpload.pl?").data := by
          refine ⟨s, ['?'], ?_⟩
          show (s ++ "password=".data) ++ ['?'] = _
          rw [← ha₂eq, hs]
          rfl
        have hcs : containsSub "password=".data
            ("http://www.windfinder.com/wind-cgi/httpload.pl?").data = true :=
          (containsSubEq _ _).mpr hinf
        exact absurd hcs (by decide)
      · rw [← ht] at hpref
        have hct : (c :: t') <+: (['?'] ++ w) := pref_cancel hpref
        have hct' : (c :: t') <+: ('?' :: w) := hct
        have hc : c = '?' := (List.cons_prefix_cons.mp hct').1
        have hcp : c ∈ "password=".data := by
          rw [← ht]
          exact List.mem_append_right _ (List.mem_cons_self _ _)
        rw [hc] at hcp
        exact absurd hcp (by decide)

/-- C6 (amended): every URL `format_url` logs has the `password` query value
replaced by the fixed token `XXX` — the logged string is exactly the URL
rebuilt with the password entry substituted — but the literal password
substring may still appear elsewhere in the logged string, e.g. inside the
`sender_id` value. -/
theorem C6_redaction_replaces_password_value (toM : Rec → Rec)
    (convert : UnitConvert) (lt : ℚ → Tm) (sid pwd : String) (in_record : Rec)
    (url : String)
    (h : format_url toM convert lt sid pwd _SERVER_URL in_record =
      Except.ok url) :
    ∃ r dt, knotSteps convert (toM in_record) = Except.ok r ∧
      getVal r "dateTime" = some dt ∧
      redactPassword url =
        _SERVER_URL ++ "?" ++
          urlencode (substPwd (buildValues lt sid pwd r dt)) := by
  rcases format_url_ok_shape toM convert lt sid pwd _SERVER_URL in_record url h
    with ⟨r, dt, h1, h2, h3⟩
  refine ⟨r, dt, h1, h2, ?_⟩
  subst h3
  unfold redactPassword
  rw [show (_SERVER_URL ++ "?" ++ urlencode (buildValues lt sid pwd r dt)).data
      = ("http://www.windfinder.com/wind-cgi/httpload.pl?").data ++
        (urlencode (buildValues lt sid pwd r dt)).data from by
    rw [strDataAppend]
    rfl]
  rw [redact_prefix_skip]
  rw [urlencode_data]
  rw [redact_qstring _ (by
    intro kv hkv
    rcases List.mem_map.mp hkv with ⟨kv0, hkv0, rfl⟩
    exact ⟨goodKey_quotePlus_wfKeys kv0.1
      (buildValues_keys lt sid pwd r dt kv0 hkv0), quotePlus_goodVal kv0.2⟩)]
  rw [← encode_substPwd _ (buildValues_keys lt sid pwd r dt)]
  rw [← urlencode_data]
  rw [show ("http://www.windfinder.com/wind-cgi/httpload.pl?").data ++
      (urlencode (substPwd (buildValues lt sid pwd r dt))).data =
      (_SERVER_URL ++ "?" ++
        urlencode (substPwd (buildValues lt sid pwd r dt))).data from by
    rw [strDataAppend]
    rfl]

/-- Witness for C6 (amended) at a concrete record and credentials. -/
theorem C6_redaction_replaces_password_value_witness :
    ∃ r dt,
      knotSteps weewxSpeedConvert [("dateTime", some (0 : ℚ))] = Except.ok r ∧
      getVal r "dateTime" = some dt ∧
      redactPassword (_SERVER_URL ++ "?" ++ urlencode (buildValues
        (fun _ => ⟨2020, 1, 2, 3, 4⟩) "sid" "pwd"
        [("dateTime", some (0 : ℚ))] 0)) =
        _SERVER_URL ++ "?" ++ urlencode (substPwd (buildValues
          (fun _ => ⟨2020, 1, 2, 3, 4⟩) "sid" "pwd" r dt)) :=
  C6_redaction_replaces_password_value id weewxSpeedConvert (fun _ => ⟨2020, 1, 2, 3, 4⟩) "sid" "pwd"
    [("dateTime", some (0 : ℚ))]
    (_SERVER_URL ++ "?" ++ urlencode (buildValues (fun _ => ⟨2020, 1, 2, 3, 4⟩)
      "sid" "pwd" [("dateTime", some (0 : ℚ))] 0)) rfl

set_option maxRecDepth 4000 in
/-- C6 counterexample: with station id and password both `secret`, the
logged URL (password value already replaced by `XXX`) still contains the
literal configured password, inside the `sender_id` value — so the logged
string is not free of the password substring. -/
theorem C6_counterexample :
    (format_url id weewxSpeedConvert (fun _ => ⟨2014, 6, 10, 17, 13⟩)
        "secret" "secret" _SERVER_URL [("dateTime", some 0)]).map
      (fun url => (logged_url 2 url).map
        (fun s => containsSub "secret".data s.data)) =
      Except.ok (some true) := by
  rfl
